import Mathlib

/-!
Verification of the AgentMesh SDK (packages/sdk/src): the crypto codec
(crypto.ts), the store/retrieve workflow (mesh.ts, ipfs.ts) and the peer
discovery layer (discovery.ts), shallowly embedded in Lean.

Bytes are modelled as `List Nat` (a Node `Buffer` is a byte sequence; no
claim inspects byte ranges, so entries are unrestricted naturals).  The
base64 strings inside `EncryptedPayload` are modelled by the byte lists
they encode, because every code path decodes them right back
(`Buffer.from(s, 'base64')` inverts `buf.toString('base64')`).

External primitives (Node `crypto` AES-256-GCM and SHA-256, the JS JSON
serializer, the IPFS daemon) are modelled as structures carrying the
primitive's functions, with a separate `Lawful` predicate stating the
contract the SDK relies on; concrete executable instances are provided
further down and proved lawful, so every claim can be exercised on
concrete inputs.
-/

namespace AgentMesh

/-! ## crypto.ts -/

/-- Constant `IV_LENGTH` of crypto.ts. -/
def IV_LENGTH : Nat := 12

/-- Constant `AUTH_TAG_LENGTH` of crypto.ts. -/
def AUTH_TAG_LENGTH : Nat := 16

/-- Interface `EncryptedPayload` of crypto.ts: ciphertext, initialization
vector and authentication tag (each a base64 string in the source, modelled
by the bytes it encodes). -/
structure EncryptedPayload where
  ciphertext : List Nat
  iv : List Nat
  authTag : List Nat
deriving DecidableEq, Repr

/-- Model of the external Node `crypto` AES-256-GCM primitive
(`createCipheriv`/`createDecipheriv` with `aes-256-gcm`): `enc` takes
plaintext, key and IV and returns (ciphertext, authTag); `dec` takes
ciphertext, authTag, IV and key and returns the plaintext, or `none` when
authentication fails (Node throws in that case). -/
structure GcmModel where
  enc : List Nat → List Nat → List Nat → List Nat × List Nat
  dec : List Nat → List Nat → List Nat → List Nat → Option (List Nat)

/-- The contract of AES-256-GCM the SDK relies on: a 16-byte tag,
length-preserving ciphertext, decryption inverting encryption under the
same key, and (idealizing the authenticator) rejection under any other
key. -/
structure GcmModel.Lawful (G : GcmModel) : Prop where
  tag_length : ∀ p key iv, (G.enc p key iv).2.length = AUTH_TAG_LENGTH
  ct_length : ∀ p key iv, (G.enc p key iv).1.length = p.length
  dec_enc : ∀ p key iv, G.dec (G.enc p key iv).1 (G.enc p key iv).2 iv key = some p
  dec_wrong_key : ∀ p key iv k₂, k₂ ≠ key →
    G.dec (G.enc p key iv).1 (G.enc p key iv).2 iv k₂ = none

/-- Model of the external Node `crypto` SHA-256 hash
(`createHash('sha256')`). -/
structure HashModel where
  sha256 : List Nat → List Nat

/-- The SHA-256 contract `deriveKey` relies on: a 32-byte digest. -/
structure HashModel.Lawful (H : HashModel) : Prop where
  digest_length : ∀ x, (H.sha256 x).length = 32

/-- UTF-8 encoding of a passphrase, modelled by its codepoint sequence
(injective, which is all the claims need). -/
def utf8Bytes (s : String) : List Nat :=
  s.data.map Char.toNat

/-- Function `deriveKey` of crypto.ts: one round of SHA-256 over the
passphrase bytes. -/
def deriveKey (H : HashModel) (passphrase : String) : List Nat :=
  H.sha256 (utf8Bytes passphrase)

/-- Function `encrypt` of crypto.ts (Buffer key, Buffer data branch); the
random `iv = randomBytes(IV_LENGTH)` is passed explicitly so that claims
quantify over it. -/
def encrypt (G : GcmModel) (data key iv : List Nat) : EncryptedPayload :=
  let r := G.enc data key iv
  { ciphertext := r.1, iv := iv, authTag := r.2 }

/-- Function `decrypt` of crypto.ts (Buffer key branch): `none` models the
exception Node's decipher throws when the auth tag does not verify. -/
def decrypt (G : GcmModel) (payload : EncryptedPayload) (key : List Nat) :
    Option (List Nat) :=
  G.dec payload.ciphertext payload.authTag payload.iv key

/-- Function `packPayload` of crypto.ts: `Buffer.concat([iv, authTag,
ciphertext])`. -/
def packPayload (payload : EncryptedPayload) : List Nat :=
  payload.iv ++ payload.authTag ++ payload.ciphertext

/-- Function `unpackPayload` of crypto.ts: `subarray(0, 12)`,
`subarray(12, 28)`, `subarray(28)`.  `Buffer.subarray` clamps to the
buffer's bounds and never throws, which `take`/`drop` model exactly; the
source performs no length check. -/
def unpackPayload (packed : List Nat) : EncryptedPayload :=
  { iv := packed.take IV_LENGTH
    authTag := (packed.drop IV_LENGTH).take AUTH_TAG_LENGTH
    ciphertext := packed.drop (IV_LENGTH + AUTH_TAG_LENGTH) }

/-! ## mesh.ts data model -/

/-- JSON-compatible metadata values (spec section 3: string, number, bool,
null, nested list, nested map).  JS numbers are modelled by the integers,
which covers the numeric timestamps the claims are about. -/
inductive Json where
  | str : String → Json
  | num : Int → Json
  | bool : Bool → Json
  | null : Json
  | arr : List Json → Json
  | obj : List (String × Json) → Json

/-- Interface `Memory` of mesh.ts: type, content, Unix timestamp and
optional metadata record. -/
structure Memory where
  type : String
  content : String
  timestamp : Int
  metadata : Option (List (String × Json)) := none

/-- Model of the external JS JSON serializer used by mesh.ts
(`JSON.stringify` to bytes of the JSON text, `JSON.parse` back). -/
structure JsonCodec where
  stringify : Memory → List Nat
  parse : List Nat → Option Memory

/-- The JSON contract mesh.ts relies on: parsing a serialized record gives
back the record (numeric timestamps and nested metadata preserved). -/
structure JsonCodec.Lawful (J : JsonCodec) : Prop where
  parse_stringify : ∀ m, J.parse (J.stringify m) = some m

/-! ## ipfs.ts -/

/-- Interface `AddResult` of ipfs.ts (the CID, an opaque string computed
by the daemon from the blob's bytes, is modelled as a natural number). -/
structure AddResult where
  cid : Nat
  size : Nat
deriving DecidableEq, Repr

/-- Injective encoding of a byte list into one natural, used to model
content addressing (identical bytes yield the identical identifier). -/
def encList : List Nat → Nat
  | [] => 0
  | a :: l => Nat.pair a (encList l) + 1

/-- The content identifier the IPFS daemon computes for a blob:
deterministic in the bytes and (idealizing the hash) injective. -/
def cidOf (data : List Nat) : Nat := encList data

/-- State of the modelled IPFS daemon: the blobs it stores. -/
abbrev IpfsState := List (List Nat)

/-- Error taxonomy for the store/retrieve workflow (spec section 7):
`addFailed` models a non-ok response to `/api/v0/add`, `notFound` a failed
`/api/v0/cat`, `integrityError` an authentication failure in `decrypt`,
`formatError` a deserialization failure after decryption. -/
inductive MeshError where
  | addFailed
  | notFound
  | integrityError
  | formatError
deriving DecidableEq, Repr

/-- Method `IPFSClient.add`: POSTs the blob to the daemon; `net` says
whether the HTTP request succeeds for that body (throws on a non-ok
response).  On success the daemon stores the blob and answers the
content-derived CID and the size. -/
def IPFSClient.add (net : List Nat → Bool) (st : IpfsState) (data : List Nat) :
    Except MeshError (AddResult × IpfsState) :=
  if net data then .ok ({ cid := cidOf data, size := data.length }, data :: st)
  else .error .addFailed

/-- Method `IPFSClient.cat`: fetches a blob by CID; throws (here: errors)
when the daemon cannot serve it. -/
def IPFSClient.cat (st : IpfsState) (cid : Nat) : Except MeshError (List Nat) :=
  match st.find? (fun b => cidOf b == cid) with
  | some b => .ok b
  | none => .error .notFound

/-! ## mesh.ts AgentMesh class -/

/-- Interface `StoreResult` of mesh.ts. -/
structure StoreResult where
  cid : Nat
  size : Nat
deriving DecidableEq, Repr

/-- The packed blob `store` hands to the content store for a given record:
serialize, encrypt, pack. -/
def packedBytes (J : JsonCodec) (G : GcmModel) (key iv : List Nat) (m : Memory) :
    List Nat :=
  packPayload (encrypt G (J.stringify m) key iv)

/-- Method `AgentMesh.store`: serialize the memory with `JSON.stringify`,
encrypt with the held key, pack into a single buffer, add to IPFS, and
return the CID with the encrypted size. -/
def store (J : JsonCodec) (G : GcmModel) (net : List Nat → Bool) (st : IpfsState)
    (key iv : List Nat) (memory : Memory) :
    Except MeshError (StoreResult × IpfsState) :=
  let json := J.stringify memory
  let encrypted := encrypt G json key iv
  let packed := packPayload encrypted
  match IPFSClient.add net st packed with
  | .error e => .error e
  | .ok (result, st') => .ok ({ cid := result.cid, size := result.size }, st')

/-- Method `AgentMesh.retrieve`: fetch the packed blob from IPFS, unpack,
decrypt with the held key, and parse the JSON. -/
def retrieve (J : JsonCodec) (G : GcmModel) (st : IpfsState) (key : List Nat)
    (cid : Nat) : Except MeshError Memory :=
  match IPFSClient.cat st cid with
  | .error e => .error e
  | .ok packed =>
    let encrypted := unpackPayload packed
    match decrypt G encrypted key with
    | none => .error .integrityError
    | some decrypted =>
      match J.parse decrypted with
      | none => .error .formatError
      | some m => .ok m

/-- Worker for `storeBatch`: stores each memory in turn (element `k` gets
the fresh random IV `ivs (i + k)`), propagating the first element failure
as the failure of the whole batch, as `Promise.all` does. -/
def storeBatchAux (J : JsonCodec) (G : GcmModel) (net : List Nat → Bool)
    (key : List Nat) (ivs : Nat → List Nat) :
    Nat → IpfsState → List Memory → Except MeshError (List StoreResult × IpfsState)
  | _, st, [] => .ok ([], st)
  | i, st, m :: ms =>
    match store J G net st key (ivs i) m with
    | .error e => .error e
    | .ok (r, st') =>
      match storeBatchAux J G net key ivs (i + 1) st' ms with
      | .error e => .error e
      | .ok (rs, st'') => .ok (r :: rs, st'')

/-- Method `AgentMesh.storeBatch`: `Promise.all(memories.map(m =>
this.store(m)))` — an aggregate result that fails if any element fails. -/
def storeBatch (J : JsonCodec) (G : GcmModel) (net : List Nat → Bool)
    (st : IpfsState) (key : List Nat) (ivs : Nat → List Nat) (memories : List Memory) :
    Except MeshError (List StoreResult × IpfsState) :=
  storeBatchAux J G net key ivs 0 st memories

/-- Worker for `retrieveBatch`: retrieves each CID, propagating the first
element failure as the failure of the whole batch. -/
def retrieveBatchAux (J : JsonCodec) (G : GcmModel) (st : IpfsState)
    (key : List Nat) : List Nat → Except MeshError (List Memory)
  | [] => .ok []
  | cid :: cids =>
    match retrieve J G st key cid with
    | .error e => .error e
    | .ok m =>
      match retrieveBatchAux J G st key cids with
      | .error e => .error e
      | .ok ms => .ok (m :: ms)

/-- Method `AgentMesh.retrieveBatch`: `Promise.all(cids.map(cid =>
this.retrieve(cid)))`. -/
def retrieveBatch (J : JsonCodec) (G : GcmModel) (st : IpfsState)
    (key : List Nat) (cids : List Nat) : Except MeshError (List Memory) :=
  retrieveBatchAux J G st key cids

/-! ## discovery.ts -/

/-- Capability tags of interface `PeerInfo`. -/
inductive Capability where
  | storage
  | query
  | relay
deriving DecidableEq, Repr

/-- Interface `PeerInfo` of discovery.ts; the optional fields model the
optional TS properties. -/
structure PeerInfo where
  peerId : String
  agentName : Option String := none
  multiaddrs : Option (List String) := none
  capabilities : Option (List Capability) := none
  lastSeen : Option Nat := none
deriving DecidableEq, Repr

/-- One entry of the `/api/v0/swarm/peers` response body. -/
structure SwarmPeer where
  peer : String
  addr : String
deriving DecidableEq, Repr

/-- Outcome of one `fetch` against the IPFS HTTP API: an ok response with
parsed body `α`, a non-ok response (`response.ok` false), or a thrown
network/timeout error. -/
inductive FetchOutcome (α : Type) where
  | ok : α → FetchOutcome α
  | httpError : FetchOutcome α
  | netError : FetchOutcome α

/-- State of class `MeshDiscovery`: the agent name, the dynamic
`connectedPeers` map (an association list keyed by peer id, newest entry
first, as `Map.set` followed by `Map.get` behaves) and the configured
bootstrap list. -/
structure MeshDiscovery where
  agentName : Option String := none
  connectedPeers : List (String × PeerInfo) := []
  bootstrapPeers : List PeerInfo

/-- Method `MeshDiscovery.connect` as a function of the transport
response: `true` on an ok response, `false` (never an exception) on a
non-ok response or a thrown error — both catch branches return false. -/
def MeshDiscovery.connect (o : FetchOutcome (Option (List String))) : Bool :=
  match o with
  | .ok _ => true
  | .httpError => false
  | .netError => false

/-- The addresses `bootstrap` tries for a peer: its multiaddrs when the
property is present, else the single `/p2p/<peerId>` fallback. -/
def peerAddresses (peer : PeerInfo) : List String :=
  peer.multiaddrs.getD ["/p2p/" ++ peer.peerId]

/-- Inner loop of `bootstrap` over one peer's addresses: try each in order
until `connect` succeeds.  Returns the successful address (if any) and the
list of addresses actually handed to `connect`. -/
def tryAddrs (resp : String → FetchOutcome (Option (List String))) :
    List String → Option String × List String
  | [] => (none, [])
  | a :: rest =>
    if MeshDiscovery.connect (resp a) then (some a, [a])
    else
      let r := tryAddrs resp rest
      (r.1, a :: r.2)

/-- Result record of `bootstrap`. -/
structure BootstrapResult where
  connected : Nat
  failed : Nat
  skipped : Nat
deriving DecidableEq, Repr

/-- Loop of `MeshDiscovery.bootstrap` over the bootstrap list: an entry
whose peerId equals our own id is skipped and counted, every other entry
has its addresses tried in order; on success it is recorded in
`connectedPeers` with `lastSeen` refreshed.  Besides the counts and the
updated map, the model returns the instrumentation the self-skip claim is
about: every (peerId, address) pair that was handed to `connect`. -/
def bootstrapAux (resp : String → FetchOutcome (Option (List String)))
    (selfPeerId : String) (now : Nat) :
    List PeerInfo → List (String × PeerInfo) →
    BootstrapResult × List (String × PeerInfo) × List (String × String)
  | [], conn => ({ connected := 0, failed := 0, skipped := 0 }, conn, [])
  | peer :: rest, conn =>
    if peer.peerId = selfPeerId then
      let r := bootstrapAux resp selfPeerId now rest conn
      ({ r.1 with skipped := r.1.skipped + 1 }, r.2.1, r.2.2)
    else
      let t := tryAddrs resp (peerAddresses peer)
      let attempts := t.2.map (fun a => (peer.peerId, a))
      match t.1 with
      | some _ =>
        let conn' := (peer.peerId, { peer with lastSeen := some now }) :: conn
        let r := bootstrapAux resp selfPeerId now rest conn'
        ({ r.1 with connected := r.1.connected + 1 }, r.2.1, attempts ++ r.2.2)
      | none =>
        let r := bootstrapAux resp selfPeerId now rest conn
        ({ r.1 with failed := r.1.failed + 1 }, r.2.1, attempts ++ r.2.2)

/-- Method `MeshDiscovery.bootstrap`: fetches our own peer id
(`selfPeerId`, from `ipfs.id()`) and iterates the configured bootstrap
set. -/
def MeshDiscovery.bootstrap (d : MeshDiscovery)
    (resp : String → FetchOutcome (Option (List String)))
    (selfPeerId : String) (now : Nat) :
    BootstrapResult × List (String × PeerInfo) × List (String × String) :=
  bootstrapAux resp selfPeerId now d.bootstrapPeers d.connectedPeers

/-- The JS object spread `{...p, ...known, lastSeen: Date.now()}` used by
`peers()`: fields present on `known` win, absent optional fields keep
`p`'s value, and `lastSeen` is always refreshed. -/
def mergeSpread (p known : PeerInfo) (now : Nat) : PeerInfo :=
  { peerId := known.peerId
    agentName := known.agentName.orElse fun _ => p.agentName
    multiaddrs := known.multiaddrs.orElse fun _ => p.multiaddrs
    capabilities := known.capabilities.orElse fun _ => p.capabilities
    lastSeen := some now }

/-- The enrichment step of `peers()`: look the live peer up in
`connectedPeers`, then in the bootstrap list, and merge the known record
over it; an unknown peer is returned unchanged. -/
def enrichPeer (d : MeshDiscovery) (now : Nat) (p : PeerInfo) : PeerInfo :=
  let known := ((d.connectedPeers.find? (fun e => e.1 == p.peerId)).map Prod.snd).orElse
    fun _ => d.bootstrapPeers.find? (fun bp => bp.peerId == p.peerId)
  match known with
  | some k => mergeSpread p k now
  | none => p

/-- Method `MeshDiscovery.peers` as a function of the transport response:
on a non-ok response the thrown error is caught and `[]` returned, on a
thrown network error `[]` is returned; on success the reported peers
(`Peers` may be absent) are mapped to `PeerInfo` records and enriched. -/
def MeshDiscovery.peers (d : MeshDiscovery)
    (o : FetchOutcome (Option (List SwarmPeer))) (now : Nat) : List PeerInfo :=
  match o with
  | .httpError => []
  | .netError => []
  | .ok body =>
    let raw := (body.getD []).map fun p =>
      { peerId := p.peer, multiaddrs := some [p.addr], lastSeen := some now : PeerInfo }
    raw.map (enrichPeer d now)

/-- Method `MeshDiscovery.findMeshPeers`: the connected peers whose peerId
appears in the bootstrap list. -/
def MeshDiscovery.findMeshPeers (d : MeshDiscovery)
    (o : FetchOutcome (Option (List SwarmPeer))) (now : Nat) : List PeerInfo :=
  (d.peers o now).filter fun p =>
    d.bootstrapPeers.any fun bp => bp.peerId == p.peerId

/-! ## Concrete instances of the external primitives

Executable stand-ins for the AES-256-GCM cipher, the SHA-256 hash and the
JSON serializer, each satisfying the corresponding `Lawful` contract.
They let every parametric claim be exercised on concrete inputs. -/

/-- Left inverse of `encList`. -/
def decList (n : Nat) : List Nat :=
  match n with
  | 0 => []
  | m + 1 => (Nat.unpair m).1 :: decList (Nat.unpair m).2
decreasing_by exact Nat.lt_succ_of_le (Nat.unpair_right_le m)

/-- Injective encoding of a string into one natural. -/
def encStr (s : String) : Nat := encList (s.data.map Char.toNat)

/-- Left inverse of `encStr`. -/
def decStr (n : Nat) : String := String.mk ((decList n).map Char.ofNat)

/-- Injective encoding of an integer into a natural. -/
def encInt : Int → Nat
  | .ofNat n => 2 * n
  | .negSucc n => 2 * n + 1

/-- Left inverse of `encInt`. -/
def decInt (n : Nat) : Int :=
  if n % 2 = 0 then .ofNat (n / 2) else .negSucc (n / 2)

mutual

/-- Injective encoding of a JSON value into one natural. -/
def encJson : Json → Nat
  | .null => 0
  | .str s => Nat.pair 0 (encStr s) + 1
  | .num i => Nat.pair 1 (encInt i) + 1
  | .bool b => Nat.pair 2 (cond b 1 0) + 1
  | .arr l => Nat.pair 3 (encJsonArr l) + 1
  | .obj l => Nat.pair 4 (encJsonObj l) + 1

/-- Injective encoding of a JSON array into one natural. -/
def encJsonArr : List Json → Nat
  | [] => 0
  | j :: l => Nat.pair (encJson j) (encJsonArr l) + 1

/-- Injective encoding of a JSON object into one natural. -/
def encJsonObj : List (String × Json) → Nat
  | [] => 0
  | (s, j) :: l => Nat.pair (Nat.pair (encStr s) (encJson j)) (encJsonObj l) + 1

end

mutual

/-- Fuel-indexed decoder inverting `encJson`. -/
def decJson : Nat → Nat → Option Json
  | 0, _ => none
  | _ + 1, 0 => some .null
  | fuel + 1, n + 1 =>
    match (Nat.unpair n).1, (Nat.unpair n).2 with
    | 0, v => some (.str (decStr v))
    | 1, v => some (.num (decInt v))
    | 2, v => some (.bool (v == 1))
    | 3, v => (decJsonArr fuel v).map .arr
    | 4, v => (decJsonObj fuel v).map .obj
    | _, _ => none

/-- Fuel-indexed decoder inverting `encJsonArr`. -/
def decJsonArr : Nat → Nat → Option (List Json)
  | 0, _ => none
  | _ + 1, 0 => some []
  | fuel + 1, n + 1 =>
    match decJson fuel (Nat.unpair n).1, decJsonArr fuel (Nat.unpair n).2 with
    | some j, some l => some (j :: l)
    | _, _ => none

/-- Fuel-indexed decoder inverting `encJsonObj`. -/
def decJsonObj : Nat → Nat → Option (List (String × Json))
  | 0, _ => none
  | _ + 1, 0 => some []
  | fuel + 1, n + 1 =>
    match decJson fuel (Nat.unpair (Nat.unpair n).1).2,
          decJsonObj fuel (Nat.unpair n).2 with
    | some j, some l => some ((decStr (Nat.unpair (Nat.unpair n).1).1, j) :: l)
    | _, _ => none

end

/-- Injective encoding of the optional metadata map into one natural. -/
def encMeta : Option (List (String × Json)) → Nat
  | none => 0
  | some l => encJsonObj l + 1

/-- Left inverse of `encMeta`. -/
def decMeta (n : Nat) : Option (Option (List (String × Json))) :=
  match n with
  | 0 => some none
  | m + 1 => (decJsonObj (m + 1) m).map some

/-- Injective encoding of a `Memory` record into one natural. -/
def encMemory (m : Memory) : Nat :=
  Nat.pair (encStr m.type)
    (Nat.pair (encStr m.content) (Nat.pair (encInt m.timestamp) (encMeta m.metadata)))

/-- Left inverse of `encMemory`. -/
def decMemory (n : Nat) : Option Memory :=
  match decMeta (Nat.unpair (Nat.unpair (Nat.unpair n).2).2).2 with
  | none => none
  | some meta =>
    some { type := decStr (Nat.unpair n).1
           content := decStr (Nat.unpair (Nat.unpair n).2).1
           timestamp := decInt (Nat.unpair (Nat.unpair (Nat.unpair n).2).2).1
           metadata := meta }

/-- A concrete lawful stand-in for the external JSON serializer: a record
is serialized to a single pseudo-byte carrying an injective encoding, and
parsed back by decoding it. -/
def natJsonCodec : JsonCodec where
  stringify := fun m => [encMemory m]
  parse := fun l =>
    match l with
    | [n] => decMemory n
    | _ => none

/-- The authentication tag of the model cipher: a 16-entry list whose head
determines key, IV and ciphertext injectively. -/
def modelTag (key iv ct : List Nat) : List Nat :=
  Nat.pair (encList key) (Nat.pair (encList iv) (encList ct)) ::
    List.replicate (AUTH_TAG_LENGTH - 1) 0

/-- A concrete lawful stand-in for AES-256-GCM: the ciphertext carries the
plaintext unchanged (confidentiality is not among the claims) and the tag
authenticates key, IV and ciphertext exactly. -/
def gcmModel : GcmModel where
  enc := fun p key iv => (p, modelTag key iv p)
  dec := fun ct tag iv key => if tag = modelTag key iv ct then some ct else none

/-- A concrete lawful stand-in for SHA-256: a deterministic 32-entry
digest. -/
def hashModel : HashModel where
  sha256 := fun x => (x ++ List.replicate 32 0).take 32

/-! ## Concrete discovery scenario

The mesh-classification example of spec section 8: connected peers
{A, B, C}, bootstrap set {B, D}. -/

/-- Bootstrap set {B, D} of the mesh-classification example. -/
def exampleDirectory : MeshDiscovery :=
  { bootstrapPeers := [{ peerId := "B" }, { peerId := "D" }] }

/-- Transport response reporting connected peers {A, B, C}. -/
def exampleSwarmResponse : FetchOutcome (Option (List SwarmPeer)) :=
  .ok (some [{ peer := "A", addr := "a" }, { peer := "B", addr := "b" },
             { peer := "C", addr := "c" }])

/-! ## Lawfulness of the concrete instances -/

theorem decList_encList : ∀ l : List Nat, decList (encList l) = l
  | [] => by simp [encList, decList]
  | a :: l => by
    have ih := decList_encList l
    simp [encList, decList, Nat.unpair_pair, ih]

theorem encList_inj {x y : List Nat} (h : encList x = encList y) : x = y := by
  rw [← decList_encList x, h, decList_encList]

theorem decStr_encStr (s : String) : decStr (encStr s) = s := by
  cases s with
  | mk data =>
    simp [encStr, decStr, decList_encList, List.map_map, Function.comp_def,
      Char.ofNat_toNat]

theorem decInt_encInt : ∀ i : Int, decInt (encInt i) = i
  | .ofNat n => by
    simp only [encInt, decInt, Nat.mul_mod_right, if_pos rfl]
    norm_num
  | .negSucc n => by
    have h1 : (2 * n + 1) % 2 = 1 := by omega
    have h2 : (2 * n + 1) / 2 = n := by omega
    simp [encInt, decInt, h1, h2]

theorem decJson_fuel : ∀ fuel : Nat,
    (∀ j : Json, encJson j < fuel → decJson fuel (encJson j) = some j) ∧
    (∀ l : List Json, encJsonArr l < fuel → decJsonArr fuel (encJsonArr l) = some l) ∧
    (∀ l : List (String × Json), encJsonObj l < fuel →
      decJsonObj fuel (encJsonObj l) = some l) := by
  intro fuel
  induction fuel with
  | zero =>
    exact ⟨fun j h => absurd h (Nat.not_lt_zero _),
           fun l h => absurd h (Nat.not_lt_zero _),
           fun l h => absurd h (Nat.not_lt_zero _)⟩
  | succ f ih =>
    obtain ⟨ihj, iha, iho⟩ := ih
    refine ⟨?_, ?_, ?_⟩
    · intro j hj
      cases j with
      | null => simp [encJson, decJson]
      | str s => simp [encJson, decJson, Nat.unpair_pair, decStr_encStr]
      | num i => simp [encJson, decJson, Nat.unpair_pair, decInt_encInt]
      | bool b => cases b <;> simp [encJson, decJson, Nat.unpair_pair]
      | arr l =>
        have hb : Nat.pair 3 (encJsonArr l) + 1 < f + 1 := by
          simpa [encJson] using hj
        have hr : encJsonArr l < f := by
          have := Nat.right_le_pair 3 (encJsonArr l)
          omega
        simp [encJson, decJson, Nat.unpair_pair, iha l hr]
      | obj l =>
        have hb : Nat.pair 4 (encJsonObj l) + 1 < f + 1 := by
          simpa [encJson] using hj
        have hr : encJsonObj l < f := by
          have := Nat.right_le_pair 4 (encJsonObj l)
          omega
        simp [encJson, decJson, Nat.unpair_pair, iho l hr]
    · intro l hl
      cases l with
      | nil => simp [encJsonArr, decJsonArr]
      | cons j t =>
        have hb : Nat.pair (encJson j) (encJsonArr t) + 1 < f + 1 := by
          simpa [encJsonArr] using hl
        have hj : encJson j < f := by
          have := Nat.left_le_pair (encJson j) (encJsonArr t)
          omega
        have ht : encJsonArr t < f := by
          have := Nat.right_le_pair (encJson j) (encJsonArr t)
          omega
        simp [encJsonArr, decJsonArr, Nat.unpair_pair, ihj j hj, iha t ht]
    · intro l hl
      cases l with
      | nil => simp [encJsonObj, decJsonObj]
      | cons e t =>
        obtain ⟨s, j⟩ := e
        have hb : Nat.pair (Nat.pair (encStr s) (encJson j)) (encJsonObj t) + 1
            < f + 1 := by
          simpa [encJsonObj] using hl
        have hj : encJson j < f := by
          have h1 := Nat.right_le_pair (encStr s) (encJson j)
          have h2 := Nat.left_le_pair (Nat.pair (encStr s) (encJson j)) (encJsonObj t)
          omega
        have ht : encJsonObj t < f := by
          have := Nat.right_le_pair (Nat.pair (encStr s) (encJson j)) (encJsonObj t)
          omega
        simp [encJsonObj, decJsonObj, Nat.unpair_pair, ihj j hj, iho t ht,
          decStr_encStr]

theorem decMeta_encMeta : ∀ meta, decMeta (encMeta meta) = some meta
  | none => by simp [encMeta, decMeta]
  | some l => by
    have h := (decJson_fuel (encJsonObj l + 1)).2.2 l (Nat.lt_succ_self _)
    simp [encMeta, decMeta, h]

theorem decMemory_encMemory (m : Memory) : decMemory (encMemory m) = some m := by
  cases m with
  | mk t c ts meta =>
    simp [encMemory, decMemory, Nat.unpair_pair, decStr_encStr, decInt_encInt,
      decMeta_encMeta]

theorem natJsonCodec_lawful : natJsonCodec.Lawful := by
  constructor
  intro m
  simp [natJsonCodec, decMemory_encMemory]

theorem modelTag_inj {k₁ k₂ iv₁ iv₂ ct₁ ct₂ : List Nat}
    (h : modelTag k₁ iv₁ ct₁ = modelTag k₂ iv₂ ct₂) :
    k₁ = k₂ ∧ iv₁ = iv₂ ∧ ct₁ = ct₂ := by
  simp only [modelTag, List.cons.injEq] at h
  obtain ⟨h1, -⟩ := h
  rw [Nat.pair_eq_pair] at h1
  obtain ⟨hk, h2⟩ := h1
  rw [Nat.pair_eq_pair] at h2
  obtain ⟨hiv, hct⟩ := h2
  exact ⟨encList_inj hk, encList_inj hiv, encList_inj hct⟩

theorem gcmModel_lawful : gcmModel.Lawful := by
  constructor
  · intro p key iv
    simp [gcmModel, modelTag, AUTH_TAG_LENGTH]
  · intro p key iv
    rfl
  · intro p key iv
    simp [gcmModel]
  · intro p key iv k₂ hne
    simp only [gcmModel]
    rw [if_neg]
    intro h
    exact hne (modelTag_inj h).1.symm

theorem hashModel_lawful : hashModel.Lawful := by
  constructor
  intro x
  simp [hashModel]

/-! ## Claim theorems -/

theorem unpack_pack (payload : EncryptedPayload)
    (hiv : payload.iv.length = IV_LENGTH)
    (htag : payload.authTag.length = AUTH_TAG_LENGTH) :
    unpackPayload (packPayload payload) = payload := by
  obtain ⟨ct, iv, tag⟩ := payload
  replace hiv : iv.length = 12 := hiv
  replace htag : tag.length = 16 := htag
  have hpre : (iv ++ tag).length = 12 + 16 := by simp [hiv, htag]
  simp only [packPayload, unpackPayload, IV_LENGTH, AUTH_TAG_LENGTH,
    EncryptedPayload.mk.injEq]
  refine ⟨List.drop_left' hpre, ?_, ?_⟩
  · rw [List.append_assoc]
    exact List.take_left' hiv
  · rw [List.append_assoc, List.drop_left' hiv]
    exact List.take_left' htag

/-- C1: for every plaintext byte sequence p (including the empty one),
every 32-byte key and every 12-byte IV the cipher draws, decrypting the
unpacking of the packed encryption of p yields exactly p. -/
theorem c1_crypto_roundtrip (G : GcmModel) (hG : G.Lawful) (p key iv : List Nat)
    (_hkey : key.length = 32) (hiv : iv.length = IV_LENGTH) :
    decrypt G (unpackPayload (packPayload (encrypt G p key iv))) key = some p := by
  rw [unpack_pack]
  · simpa [encrypt, decrypt] using hG.dec_enc p key iv
  · simpa [encrypt] using hiv
  · simpa [encrypt] using hG.tag_length p key iv

theorem c1_witness :
    decrypt gcmModel (unpackPayload (packPayload (encrypt gcmModel [1, 2, 3]
        (List.replicate 32 0) (List.replicate 12 5)))) (List.replicate 32 0) =
      some [1, 2, 3] :=
  c1_crypto_roundtrip gcmModel gcmModel_lawful [1, 2, 3] (List.replicate 32 0)
    (List.replicate 12 5) (by simp) (by simp [IV_LENGTH])

/-- C3, counterexample: the empty buffer is shorter than 28 bytes, yet
`unpackPayload` does not fail — it returns an `EncryptedPayload` (all
components clamped to empty); the source has no length check and
`Buffer.subarray` never throws. -/
theorem c3_counterexample :
    ([] : List Nat).length < 28 ∧
      unpackPayload [] = { ciphertext := [], iv := [], authTag := [] } :=
  ⟨by decide, rfl⟩

/-- C3, amended: on a buffer shorter than 28 bytes `unpackPayload` does
not fail with a FormatError; it totally returns the payload whose iv and
authTag are the clamped slices of the buffer and whose ciphertext is
empty. -/
theorem c3_unpack_short_clamps (b : List Nat) (h : b.length < 28) :
    unpackPayload b =
      { ciphertext := [], iv := b.take IV_LENGTH, authTag := b.drop IV_LENGTH } := by
  have hct : b.drop (IV_LENGTH + AUTH_TAG_LENGTH) = [] :=
    List.drop_eq_nil_of_le (by simp only [IV_LENGTH, AUTH_TAG_LENGTH]; omega)
  have ht : (b.drop IV_LENGTH).take AUTH_TAG_LENGTH = b.drop IV_LENGTH :=
    List.take_of_length_le
      (by simp only [List.length_drop, IV_LENGTH, AUTH_TAG_LENGTH]; omega)
  simp only [unpackPayload, hct, ht]

theorem c3_witness :
    ([0, 1, 2] : List Nat).length < 28 ∧
      unpackPayload [0, 1, 2] =
        { ciphertext := [], iv := [0, 1, 2].take IV_LENGTH,
          authTag := [0, 1, 2].drop IV_LENGTH } :=
  ⟨by decide, c3_unpack_short_clamps [0, 1, 2] (by decide)⟩

/-- C6: for a payload with a 12-byte iv and a 16-byte authTag, the packed
blob is iv ‖ authTag ‖ ciphertext, its slices [0,12), [12,28), [28,end)
are exactly the three components, and its length is 28 plus the
ciphertext length. -/
theorem c6_pack_layout (payload : EncryptedPayload)
    (hiv : payload.iv.length = IV_LENGTH)
    (htag : payload.authTag.length = AUTH_TAG_LENGTH) :
    packPayload payload = payload.iv ++ payload.authTag ++ payload.ciphertext ∧
    (packPayload payload).take 12 = payload.iv ∧
    ((packPayload payload).drop 12).take 16 = payload.authTag ∧
    (packPayload payload).drop 28 = payload.ciphertext ∧
    (packPayload payload).length = 28 + payload.ciphertext.length := by
  have hiv' : payload.iv.length = 12 := hiv
  have htag' : payload.authTag.length = 16 := htag
  have hpre : (payload.iv ++ payload.authTag).length = 28 := by
    simp [hiv', htag']
  refine ⟨rfl, ?_, ?_, ?_, ?_⟩
  · rw [packPayload, List.append_assoc]
    exact List.take_left' hiv'
  · rw [packPayload, List.append_assoc, List.drop_left' hiv']
    exact List.take_left' htag'
  · rw [packPayload]
    exact List.drop_left' hpre
  · rw [packPayload]
    simp only [List.length_append, hiv', htag']

theorem c6_witness :
    packPayload ⟨[9], List.replicate 12 0, List.replicate 16 1⟩ =
      List.replicate 12 0 ++ List.replicate 16 1 ++ [9] ∧
    (packPayload ⟨[9], List.replicate 12 0, List.replicate 16 1⟩).take 12 =
      List.replicate 12 0 ∧
    ((packPayload ⟨[9], List.replicate 12 0, List.replicate 16 1⟩).drop 12).take 16 =
      List.replicate 16 1 ∧
    (packPayload ⟨[9], List.replicate 12 0, List.replicate 16 1⟩).drop 28 = [9] ∧
    (packPayload ⟨[9], List.replicate 12 0, List.replicate 16 1⟩).length = 28 + 1 :=
  c6_pack_layout ⟨[9], List.replicate 12 0, List.replicate 16 1⟩
    (by simp [IV_LENGTH]) (by simp [AUTH_TAG_LENGTH])

/-- C7: `deriveKey` is a pure deterministic function of the passphrase —
equal passphrases yield identical keys — and its output is always exactly
32 bytes (the SHA-256 digest length). -/
theorem c7_deriveKey_deterministic (H : HashModel) (hH : H.Lawful)
    (p₁ p₂ : String) (h : p₁ = p₂) :
    deriveKey H p₁ = deriveKey H p₂ ∧ (deriveKey H p₁).length = 32 :=
  ⟨by rw [h], hH.digest_length _⟩

theorem c7_witness :
    deriveKey hashModel "secret" = deriveKey hashModel "secret" ∧
      (deriveKey hashModel "secret").length = 32 :=
  c7_deriveKey_deterministic hashModel hashModel_lawful "secret" "secret" rfl

/-- C9: `connect` never raises — it is a total Boolean function of the
transport outcome — and it returns false exactly when the attempt fails
(non-ok response or thrown transport error). -/
theorem c9_connect_returns_false :
    ∀ o : FetchOutcome (Option (List String)),
      MeshDiscovery.connect o = false ↔ o = .httpError ∨ o = .netError := by
  intro o
  cases o <;> simp [MeshDiscovery.connect]

/-- C10: `peers()` never raises: on a failed transport query (non-ok
response or thrown error) it returns the empty list, indistinguishable
from a node with zero connected peers. -/
theorem c10_peers_error_empty (d : MeshDiscovery)
    (o : FetchOutcome (Option (List SwarmPeer))) (now : Nat)
    (h : o = .httpError ∨ o = .netError) :
    d.peers o now = [] ∧ d.peers o now = d.peers (.ok (some [])) now := by
  rcases h with h | h <;> subst h <;> exact ⟨rfl, rfl⟩

theorem c10_witness :
    MeshDiscovery.peers exampleDirectory .httpError 0 = [] ∧
      MeshDiscovery.peers exampleDirectory .httpError 0 =
        MeshDiscovery.peers exampleDirectory (.ok (some [])) 0 :=
  c10_peers_error_empty exampleDirectory .httpError 0 (Or.inl rfl)

theorem store_ok (J : JsonCodec) (G : GcmModel) (net : List Nat → Bool)
    (st : IpfsState) (key iv : List Nat) (m : Memory)
    (hnet : net (packedBytes J G key iv m) = true) :
    store J G net st key iv m =
      .ok ({ cid := cidOf (packedBytes J G key iv m),
             size := (packedBytes J G key iv m).length },
           packedBytes J G key iv m :: st) := by
  simp only [store, IPFSClient.add, packedBytes] at hnet ⊢
  simp [hnet]

theorem retrieve_stored (J : JsonCodec) (G : GcmModel) (hJ : J.Lawful)
    (hG : G.Lawful) (st : IpfsState) (key iv k' : List Nat) (m : Memory)
    (hiv : iv.length = IV_LENGTH) :
    retrieve J G (packedBytes J G key iv m :: st) k'
        (cidOf (packedBytes J G key iv m)) =
      if k' = key then .ok m else .error .integrityError := by
  have hfind :
      (packedBytes J G key iv m :: st).find?
          (fun b => cidOf b == cidOf (packedBytes J G key iv m)) =
        some (packedBytes J G key iv m) :=
    List.find?_cons_of_pos _ (by simp)
  have hun : unpackPayload (packedBytes J G key iv m) =
      encrypt G (J.stringify m) key iv := by
    apply unpack_pack
    · simpa [encrypt] using hiv
    · simpa [encrypt] using hG.tag_length (J.stringify m) key iv
  by_cases hk : k' = key
  · subst hk
    have hdec : decrypt G (encrypt G (J.stringify m) k' iv) k' =
        some (J.stringify m) := by
      simpa [encrypt, decrypt] using hG.dec_enc (J.stringify m) k' iv
    simp [retrieve, IPFSClient.cat, hfind, hun, hdec, hJ.parse_stringify]
  · have hdec : decrypt G (encrypt G (J.stringify m) key iv) k' = none := by
      simpa [encrypt, decrypt] using hG.dec_wrong_key (J.stringify m) key iv k' hk
    simp [retrieve, IPFSClient.cat, hfind, hun, hdec, hk]

/-- C2: storing a record returns an identifier under which `retrieve` with
the same key gives back the record unchanged (serialization, encryption
and packing all round-trip — numeric timestamps and nested metadata
included), while `retrieve` with any different key fails with an
IntegrityError. -/
theorem c2_store_retrieve_roundtrip (J : JsonCodec) (G : GcmModel)
    (hJ : J.Lawful) (hG : G.Lawful) (net : List Nat → Bool) (st : IpfsState)
    (key iv k₂ : List Nat) (m : Memory)
    (hiv : iv.length = IV_LENGTH) (_hkey : key.length = 32)
    (_hk₂ : k₂.length = 32) (hne : k₂ ≠ key)
    (hnet : net (packedBytes J G key iv m) = true) :
    ∃ res st',
      store J G net st key iv m = .ok (res, st') ∧
      retrieve J G st' key res.cid = .ok m ∧
      retrieve J G st' k₂ res.cid = .error .integrityError := by
  refine ⟨{ cid := cidOf (packedBytes J G key iv m),
            size := (packedBytes J G key iv m).length },
    packedBytes J G key iv m :: st, store_ok J G net st key iv m hnet, ?_, ?_⟩
  · simpa using retrieve_stored J G hJ hG st key iv key m hiv
  · have h := retrieve_stored J G hJ hG st key iv k₂ m hiv
    rwa [if_neg hne] at h

theorem c2_witness :
    ∃ res st',
      store natJsonCodec gcmModel (fun _ => true) [] (List.replicate 32 0)
          (List.replicate 12 7) ⟨"fact", "X", 1000, none⟩ = .ok (res, st') ∧
      retrieve natJsonCodec gcmModel st' (List.replicate 32 0) res.cid =
        .ok ⟨"fact", "X", 1000, none⟩ ∧
      retrieve natJsonCodec gcmModel st' (1 :: List.replicate 31 0) res.cid =
        .error .integrityError :=
  c2_store_retrieve_roundtrip natJsonCodec gcmModel natJsonCodec_lawful
    gcmModel_lawful (fun _ => true) [] (List.replicate 32 0)
    (List.replicate 12 7) (1 :: List.replicate 31 0) ⟨"fact", "X", 1000, none⟩
    (by simp [IV_LENGTH]) (by simp) (by simp) (by decide) rfl

theorem bootstrapAux_spec (resp : String → FetchOutcome (Option (List String)))
    (selfPeerId : String) (now : Nat) :
    ∀ (peers : List PeerInfo) (conn : List (String × PeerInfo)),
      (bootstrapAux resp selfPeerId now peers conn).1.skipped =
        peers.countP (fun p => p.peerId == selfPeerId) ∧
      ∀ a ∈ (bootstrapAux resp selfPeerId now peers conn).2.2, a.1 ≠ selfPeerId := by
  intro peers
  induction peers with
  | nil => intro conn; simp [bootstrapAux]
  | cons peer rest ih =>
    intro conn
    by_cases h : peer.peerId = selfPeerId
    · constructor
      · simp [bootstrapAux, if_pos h, List.countP_cons, h, (ih conn).1]
      · intro a ha
        simp only [bootstrapAux, if_pos h] at ha
        exact (ih conn).2 a ha
    · cases htry : (tryAddrs resp (peerAddresses peer)).1 with
      | some addr =>
        constructor
        · simp [bootstrapAux, if_neg h, htry, List.countP_cons, h, (ih _).1]
        · intro a ha
          simp only [bootstrapAux, if_neg h, htry, List.mem_append,
            List.mem_map] at ha
          rcases ha with ⟨y, _, rfl⟩ | ha
          · exact h
          · exact (ih _).2 a ha
      | none =>
        constructor
        · simp [bootstrapAux, if_neg h, htry, List.countP_cons, h, (ih _).1]
        · intro a ha
          simp only [bootstrapAux, if_neg h, htry, List.mem_append,
            List.mem_map] at ha
          rcases ha with ⟨y, _, rfl⟩ | ha
          · exact h
          · exact (ih _).2 a ha

/-- C4: `bootstrap()` never hands an address of a bootstrap entry whose
peerId equals the local node's own id to `connect`, and the skipped count
equals the number of such entries in the configured bootstrap set. -/
theorem c4_bootstrap_self_skip (d : MeshDiscovery)
    (resp : String → FetchOutcome (Option (List String)))
    (selfPeerId : String) (now : Nat) :
    (d.bootstrap resp selfPeerId now).1.skipped =
      d.bootstrapPeers.countP (fun p => p.peerId == selfPeerId) ∧
    ∀ a ∈ (d.bootstrap resp selfPeerId now).2.2, a.1 ≠ selfPeerId :=
  bootstrapAux_spec resp selfPeerId now d.bootstrapPeers d.connectedPeers

/-- C5: `findMeshPeers()` returns exactly the peers of `peers()` whose
peerId appears in the bootstrap set; in particular, with connected peers
{A, B, C} and bootstrap set {B, D} it returns exactly {B}. -/
theorem c5_findMeshPeers_intersection :
    (∀ (d : MeshDiscovery) (o : FetchOutcome (Option (List SwarmPeer)))
        (now : Nat) (p : PeerInfo),
      p ∈ d.findMeshPeers o now ↔
        p ∈ d.peers o now ∧ ∃ bp ∈ d.bootstrapPeers, bp.peerId = p.peerId) ∧
    MeshDiscovery.findMeshPeers exampleDirectory exampleSwarmResponse 0 =
      [{ peerId := "B", multiaddrs := some ["b"], lastSeen := some 0 }] := by
  constructor
  · intro d o now p
    simp [MeshDiscovery.findMeshPeers, List.mem_filter, List.any_eq_true]
  · rfl

theorem storeBatchAux_err (J : JsonCodec) (G : GcmModel) (net : List Nat → Bool)
    (key : List Nat) (ivs : Nat → List Nat) :
    ∀ (ms : List Memory) (i : Nat) (st : IpfsState),
      (∃ k : Fin ms.length,
        net (packedBytes J G key (ivs (i + k.val)) (ms.get k)) = false) →
      ∃ e, storeBatchAux J G net key ivs i st ms = .error e := by
  intro ms
  induction ms with
  | nil =>
    rintro i st ⟨k, -⟩
    exact k.elim0
  | cons m t ih =>
    rintro i st ⟨⟨kv, hkv⟩, hk⟩
    by_cases hnet : net (packedBytes J G key (ivs i) m) = true
    · cases kv with
      | zero =>
        simp only [List.get, Nat.add_zero] at hk
        rw [hk] at hnet
        cases hnet
      | succ j =>
        have hj : j < t.length := by simpa using hkv
        have hex : ∃ k' : Fin t.length,
            net (packedBytes J G key (ivs ((i + 1) + k'.val)) (t.get k')) = false := by
          refine ⟨⟨j, hj⟩, ?_⟩
          have harith : i + 1 + j = i + (j + 1) := by omega
          rw [harith]
          simpa [List.get] using hk
        obtain ⟨e, he⟩ := ih (i + 1) (packedBytes J G key (ivs i) m :: st) hex
        refine ⟨e, ?_⟩
        rw [storeBatchAux, store_ok J G net st key (ivs i) m hnet]
        simp [he]
    · refine ⟨.addFailed, ?_⟩
      have hnet' : net (packedBytes J G key (ivs i) m) = false :=
        Bool.eq_false_iff.mpr hnet
      rw [storeBatchAux]
      simp only [store, IPFSClient.add, packedBytes] at hnet' ⊢
      simp [hnet']

theorem retrieveBatchAux_err (J : JsonCodec) (G : GcmModel) (st : IpfsState)
    (key : List Nat) :
    ∀ cids : List Nat,
      (∃ cid ∈ cids, ∃ e, retrieve J G st key cid = .error e) →
      ∃ e, retrieveBatchAux J G st key cids = .error e := by
  intro cids
  induction cids with
  | nil =>
    rintro ⟨cid, hmem, -⟩
    simp at hmem
  | cons c t ih =>
    rintro ⟨cid, hmem, e, he⟩
    cases hre : retrieve J G st key c with
    | error e' => exact ⟨e', by rw [retrieveBatchAux, hre]⟩
    | ok m =>
      rcases List.mem_cons.mp hmem with rfl | hmem'
      · rw [hre] at he
        cases he
      · obtain ⟨e'', he''⟩ := ih ⟨cid, hmem', e, he⟩
        exact ⟨e'', by rw [retrieveBatchAux, hre, he'']⟩

/-- C8: when any single element of a batch fails, the whole `storeBatch`
(resp. `retrieveBatch`) call fails as an aggregate failure — the result is
an error, never a partial success list, so the failure cannot be silently
dropped. -/
theorem c8_batch_failure_aggregates (J : JsonCodec) (G : GcmModel)
    (net : List Nat → Bool) (st : IpfsState) (key : List Nat)
    (ivs : Nat → List Nat) (ms : List Memory) (cids : List Nat) :
    ((∃ k : Fin ms.length,
        net (packedBytes J G key (ivs k.val) (ms.get k)) = false) →
      ∃ e, storeBatch J G net st key ivs ms = .error e) ∧
    ((∃ cid ∈ cids, ∃ e, retrieve J G st key cid = .error e) →
      ∃ e, retrieveBatch J G st key cids = .error e) := by
  constructor
  · rintro ⟨k, hk⟩
    exact storeBatchAux_err J G net key ivs ms 0 st ⟨k, by simpa using hk⟩
  · exact retrieveBatchAux_err J G st key cids

end AgentMesh
